import Mathlib

/-!
Verification of the virtual-source filter framework
(`src/modules/virtual-source-common.c`) against its specification.

The audio data path is modelled shallowly: a `pa_memchunk` is a `List α`
of frames (the frame type `α` is abstract; byte counts are expressed in
frame units wherever input and output share one frame size, and in bytes
with explicit frame sizes where the code converts between formats).
The external ring-buffer primitive `pa_memblockq` is modelled as a list
of written frames together with a read cursor; the write index always
sits at the end of the data (`pa_memblockq_push` appends).  Reading past
the written region yields the queue's silence frame, matching the
silence memchunk handed to `pa_memblockq_new`.
-/

namespace VSrc

/-- Model of the external `pa_memblockq` ring buffer: `data` is everything
ever written (the write index is at `data.length`), `read` is the read
cursor.  History before `read` is retained for `pa_memblockq_rewind`
(the code sets `maxrewind` to at least every rewind it performs), and
reads beyond the written region are filled with `silence`. -/
structure Memblockq (α : Type) where
  silence : α
  data : List α
  read : Nat
deriving DecidableEq, Repr

/-- `pa_memblockq_get_length`: bytes between read and write index. -/
def mlen {α : Type} (q : Memblockq α) : Nat :=
  q.data.length - q.read

/-- `pa_memblockq_push` / `pa_memblockq_push_align`: append at the write
index (in the frame model the chunks are always frame aligned). -/
def mpush {α : Type} (q : Memblockq α) (c : List α) : Memblockq α :=
  { q with data := q.data ++ c }

/-- `pa_memblockq_peek_fixed_size k`: return exactly `k` frames starting
at the read cursor, padding with silence on underrun. -/
def mpeekFixed {α : Type} (q : Memblockq α) (k : Nat) : List α :=
  ((q.data.drop q.read) ++ List.replicate k q.silence).take k

/-- `pa_memblockq_drop`: advance the read cursor. -/
def mdrop {α : Type} (q : Memblockq α) (k : Nat) : Memblockq α :=
  { q with read := q.read + k }

/-- `pa_memblockq_rewind`: move the read cursor backwards. -/
def mrewind {α : Type} (q : Memblockq α) (k : Nat) : Memblockq α :=
  { q with read := q.read - k }

/-- `pa_memblockq_seek(q, offset, PA_SEEK_RELATIVE, true)`: manipulate
the write index; a negative offset discards the most recently written
frames. -/
def mseek {α : Type} (q : Memblockq α) (off : Int) : Memblockq α :=
  { q with data := q.data.take (((q.data.length : Int) + off).toNat) }

/-- A fresh queue as created by `pa_memblockq_new(name, 0, MAXLENGTH, 0,
ss, 1, 1, 0, &silence)`: empty, with a silence template. -/
def memblockqNew {α : Type} (silence : α) : Memblockq α :=
  { silence := silence, data := [], read := 0 }

/-! ## Block-size policy (`check_block_sizes`, lines 61-101)

`max_block_frames` is `pa_mempool_block_size_max(mempool)` divided by the
larger of the source and source-output frame sizes; it enters the model
as the parameter `maxb` (the device maximum block size in frames). -/

/-- `MIN_BLOCK_SIZE` (line 35). -/
def MIN_BLOCK_SIZE : Nat := 16

/-- `check_block_sizes` (lines 61-101): `0` = ok, `-1` = error, with the
checks performed in source order. -/
def check_block_sizes (fixed_block_frames fixed_input_block_frames overlap_frames maxb : Nat) : Int :=
  if fixed_block_frames > maxb || fixed_input_block_frames > maxb ||
      overlap_frames + MIN_BLOCK_SIZE > maxb then -1
  else if fixed_block_frames > 0 && fixed_block_frames < MIN_BLOCK_SIZE then -1
  else if fixed_input_block_frames > 0 && fixed_input_block_frames < MIN_BLOCK_SIZE then -1
  else if fixed_block_frames + overlap_frames > maxb then -1
  else if fixed_input_block_frames > maxb then -1
  else if fixed_input_block_frames ≠ 0 && fixed_block_frames > fixed_input_block_frames then -1
  else 0

/-! ## The push path (`pa_virtual_source_output_push`, lines 577-671)

The model works in frame units: the input and output frame sizes
(`in_fs`, `out_fs`) divide every byte count in the loop, and
`pa_memblockq_push_align` keeps the queue frame aligned, so all lengths
are whole frame counts.  `max_chunk_frames` is `max_chunk_size / in_fs`
and `max_block_frames` is `pa_mempool_block_size_max(mempool)` divided
by `PA_MAX(in_fs, out_fs)` (line 639).  The entry guards (source linked,
`process_chunk`/`memblockq` present — lines 590-596, the absent-filter
case posts unchanged via `pa_virtual_source_post`, modelled separately)
are preconditions of this definition.  The filter callback
`process_chunk(src, dst, in_count, n, userdata)` is modelled as a
function from the input frames and the two counts to the `n` output
frames. -/

/-- One invocation of the filter callback inside the push loop: the
input frames handed to it, the `in_count` and `n` arguments, and the
output chunk it produced (which the loop posts downstream). -/
structure FilterCall (α : Type) where
  input : List α
  in_count : Nat
  n : Nat
  output : List α
deriving DecidableEq, Repr

/-- The `pa_vsource` fields consulted by the push loop. -/
structure VSource (α : Type) where
  fixed_block_size : Nat
  fixed_input_block_size : Nat
  overlap_frames : Nat
  max_chunk_frames : Nat
  max_block_frames : Nat
  get_current_overlap : Option Nat
  process_chunk : List α → Nat → Nat → List α

/-- Result of a push: the sequence of filter invocations (whose outputs
are posted, in order), the final queue, and whether the loop ran to
normal completion (`ok = false` models a failed `pa_assert(n > 0)` or a
diverging loop). -/
structure PushResult (α : Type) where
  posted : List (FilterCall α)
  q : Memblockq α
  ok : Bool
deriving DecidableEq, Repr

/-- The `while` condition of line 604 (in frame units):
`length > fixed_block_size || (fixed_block_size > 0 && length == fixed_block_size)`. -/
def pushLoopCond {α : Type} (vs : VSource α) (length : Nat) : Bool :=
  length > vs.fixed_block_size ||
    (vs.fixed_block_size > 0 && length == vs.fixed_block_size)

/-- Lines 611-618: the number of output samples `n` before the overlap
branch — queue length clamped by `fixed_input_block_size`,
`fixed_block_size` and `max_chunk_size / in_fs`, in source order. -/
def pushN {α : Type} (vs : VSource α) (length : Nat) : Nat :=
  let n0 := length
  let n1 := if vs.fixed_input_block_size ≠ 0 ∧ n0 > vs.fixed_input_block_size then
      vs.fixed_input_block_size else n0
  let n2 := if vs.fixed_block_size ≠ 0 ∧ n1 > vs.fixed_block_size then
      vs.fixed_block_size else n1
  min n2 vs.max_chunk_frames

/-- Lines 622-625: the configured overlap, clamped by the optional
`get_current_overlap` callback. -/
def pushOverlapBase {α : Type} (vs : VSource α) : Nat :=
  match vs.get_current_overlap with
  | some v => min vs.overlap_frames v
  | none => vs.overlap_frames

/-- Lines 627-634: for fixed input block size the overlap becomes the
shortfall to a full input block, otherwise the configured overlap. -/
def pushOv {α : Type} (vs : VSource α) (n3 : Nat) : Nat :=
  if vs.fixed_input_block_size ≠ 0 then
    (if n3 > vs.fixed_input_block_size then 0 else vs.fixed_input_block_size - n3)
  else pushOverlapBase vs

/-- Lines 630-631: `n` after the fixed-input clamp. -/
def pushN4 {α : Type} (vs : VSource α) (n3 : Nat) : Nat :=
  if vs.fixed_input_block_size ≠ 0 ∧ n3 > vs.fixed_input_block_size then
    vs.fixed_input_block_size else n3

/-- Lines 639-641: limit new samples so that `n + overlap` fits in one
mempool block. -/
def pushN5 {α : Type} (vs : VSource α) (n4 ov2 : Nat) : Nat :=
  if n4 + ov2 > vs.max_block_frames then vs.max_block_frames - ov2 else n4

/-- One iteration of the push loop body (lines 605-669). `none` models
the `pa_assert(n > 0)` failure of line 620. -/
def pushIter {α : Type} (vs : VSource α) (q : Memblockq α) :
    Option (FilterCall α × Memblockq α) :=
  let n3 := pushN vs (mlen q)
  if n3 = 0 then none
  else
    let ov2 := pushOv vs n3
    let n4 := pushN4 vs n3
    let n5 := pushN5 vs n4 ov2
    -- Get input data (lines 643-648)
    let in_count := n5 + ov2
    let q1 := if ov2 ≠ 0 then mrewind q ov2 else q
    let src := mpeekFixed q1 in_count
    let q2 := mdrop q1 in_count
    -- Let the filter process the chunk (lines 650-659)
    let dst := vs.process_chunk src in_count n5
    some (⟨src, in_count, n5, dst⟩, q2)

/-- The push loop, with explicit fuel: every productive iteration
consumes at least one queued frame, so `mlen q` iterations suffice;
running out of fuel while the condition still holds models a diverging
loop (`ok = false`). -/
def pushLoopFuel {α : Type} (vs : VSource α) : Nat → Memblockq α → PushResult α
  | 0, q => ⟨[], q, !pushLoopCond vs (mlen q)⟩
  | fuel + 1, q =>
    if pushLoopCond vs (mlen q) then
      match pushIter vs q with
      | none => ⟨[], q, false⟩
      | some (call, q2) =>
        let r := pushLoopFuel vs fuel q2
        ⟨call :: r.posted, r.q, r.ok⟩
    else ⟨[], q, true⟩

/-- `pa_virtual_source_output_push` (filtered path, lines 598-670):
append the chunk to the accumulation queue, then run the processing
loop. -/
def pa_virtual_source_output_push {α : Type} (vs : VSource α) (q : Memblockq α)
    (chunk : List α) : PushResult α :=
  let q1 := mpush q chunk
  pushLoopFuel vs (mlen q1) q1

/-! ## Runtime parameter update (`SOURCE_MESSAGE_UPDATE_PARAMETERS`,
lines 324-358) -/

/-- The three block-size fields saved and restored by the update
handler. -/
structure BlockSizeParams where
  fixed_block_size : Nat
  fixed_input_block_size : Nat
  overlap_frames : Nat
deriving DecidableEq, Repr

/-- The `SOURCE_MESSAGE_UPDATE_PARAMETERS` handler (lines 328-347): the
module's `update_filter_parameters` callback may change the block-size
fields (modelled as a function on them); the handler saves the old
values first and, when the new combination fails `check_block_sizes`,
restores all three. -/
def handle_update_parameters (old : BlockSizeParams)
    (update_filter_parameters : BlockSizeParams → BlockSizeParams)
    (maxb : Nat) : BlockSizeParams :=
  let updated := update_filter_parameters old
  if check_block_sizes updated.fixed_block_size updated.fixed_input_block_size
      updated.overlap_frames maxb < 0 then
    old
  else updated

/-! ## Rewind processing (`pa_virtual_source_output_process_rewind`,
lines 674-710) -/

/-- State consulted by the rewind handler: link/cork state of the
endpoints, the two frame sizes (`in_fs` for the master attachment,
`out_fs` for the public endpoint), the optional accumulation queue and
the optional uplink sink (its opened flag and its queue). -/
structure RewindState (α : Type) where
  linked : Bool
  corked : Bool
  in_fs : Nat
  out_fs : Nat
  memblockq : Option (Memblockq α)
  uplink : Option (Bool × Memblockq α)
deriving DecidableEq, Repr

/-- `pa_virtual_source_output_process_rewind` (lines 674-710).  The
second component is the byte count forwarded to
`pa_source_process_rewind` (`none` when nothing is forwarded because
the source is unlinked, the output corked, or the queue absorbs the
rewind). -/
def pa_virtual_source_output_process_rewind {α : Type} (st : RewindState α)
    (nbytes : Nat) : RewindState α × Option Nat :=
  if ¬ st.linked then (st, none)
  else if st.corked then (st, none)
  else
    match st.memblockq with
    | some q => ({ st with memblockq := some (mseek q (-(nbytes : Int))) }, none)
    | none =>
      let t := nbytes * st.out_fs / st.in_fs
      match st.uplink with
      | some (opened, uq) =>
        if opened then ({ st with uplink := some (opened, mrewind uq t) }, some t)
        else (st, some t)
      | none => (st, some t)

/-! ## Move permission (`pa_virtual_source_output_may_move_to`,
lines 898-926) -/

/-- The chain walk of lines 917-919: follow master attachments from a
source (`masterOf s = some m` when `s` is a virtual source whose
`output_from_master` is attached to master `m`).  `fuel` bounds the
walk; the C loop assumes the attachment graph is acyclic. -/
def chain_master (masterOf : Nat → Option Nat) : Nat → Nat → Nat
  | 0, s => s
  | fuel + 1, s =>
    match masterOf s with
    | none => s
    | some m => chain_master masterOf fuel m

/-- `pa_virtual_source_output_may_move_to` (lines 898-926), with sources
as identifiers: `self` is the node's public endpoint and
`uplink_monitor = some mon` when an uplink sink exists and has monitor
source `mon`. -/
def pa_virtual_source_output_may_move_to (autoloaded : Bool) (self dest : Nat)
    (uplink_monitor : Option Nat) (masterOf : Nat → Option Nat)
    (fuel : Nat) : Bool :=
  if autoloaded then false
  else if self == dest then false
  else
    match uplink_monitor with
    | some mon => !(chain_master masterOf fuel dest == mon)
    | none => true

/-- The mover contract: the core consults the `may_move_to` callback
before rebinding the node's upstream attachment, so a denied move
leaves the attachment where it was. -/
def move_to_attachment (autoloaded : Bool) (self dest : Nat)
    (uplink_monitor : Option Nat) (masterOf : Nat → Option Nat) (fuel : Nat)
    (current : Nat) : Nat :=
  if pa_virtual_source_output_may_move_to autoloaded self dest uplink_monitor
      masterOf fuel then dest
  else current

/-! ## Uplink sink latency (`sink_process_msg`, lines 151-177) -/

/-- `pa_bytes_to_usec` (external contract from `pulse/timeval`): bytes
to whole frames to microseconds at the given rate. -/
def pa_bytes_to_usec (nbytes fs rate : Nat) : Nat :=
  nbytes / fs * 1000000 / rate

/-- The `PA_SINK_MESSAGE_GET_LATENCY` branch of `sink_process_msg`
(lines 161-173): zero while the sink is not opened; otherwise the time
equivalent of the bytes queued in the uplink's own queue minus the
owning node's source latency
(`pa_source_get_latency_within_thread(uplink->vsource->source)`). -/
def sink_get_latency {α : Type} (opened : Bool) (uq : Memblockq α)
    (fs rate : Nat) (source_latency : Int) : Int :=
  if ¬ opened then 0
  else (pa_bytes_to_usec (mlen uq) fs rate : Int) - source_latency

/-! ## Posting with uplink mixing (`pa_virtual_source_post`,
lines 495-572) -/

/-- `PA_VOLUME_NORM` (0 dB). -/
def PA_VOLUME_NORM : Nat := 0x10000

/-- The uplink sink state consulted by `pa_virtual_source_post`. -/
structure UplinkState (α : Type) where
  opened : Bool
  rewind_requested : Bool
  rewind_nbytes : Nat
  q : Memblockq α
deriving DecidableEq, Repr

/-- `sink_process_rewind` (lines 243-274): honour a pending rewind
request on the uplink sink, bounded by what its queue holds; the
request is cleared (`pa_sink_process_rewind`) and the amount actually
rewound is returned. -/
def sink_process_rewind {α : Type} (u : UplinkState α) : UplinkState α × Nat :=
  if ¬ u.opened ∨ u.rewind_nbytes = 0 then
    ({ u with rewind_requested := false, rewind_nbytes := 0 }, 0)
  else if mlen u.q = 0 then
    ({ u with rewind_requested := false, rewind_nbytes := 0 }, 0)
  else
    let n2 := min u.rewind_nbytes (mlen u.q)
    ({ u with
        q := mseek u.q (-(n2 : Int))
        rewind_requested := false
        rewind_nbytes := 0 }, n2)

/-- The render loop of lines 522-530: keep asking the uplink sink's
producer (`pa_sink_render`) for the missing amount and pushing the
returned chunks until the queue holds at least `nbytes` bytes.
`producer` lists the successive chunks the renderer returns; `none`
models a producer that can never supply enough. -/
def render_fill {α : Type} (nbytes : Nat) :
    List (List α) → Memblockq α → Option (Memblockq α)
  | [], q => if nbytes ≤ mlen q then some q else none
  | c :: rest, q =>
    if nbytes ≤ mlen q then some q else render_fill nbytes rest (mpush q c)

/-- `pa_virtual_source_post` (lines 495-572).  `mix` is the external
mixing primitive (`pa_mix`), taking the `(chunk, per-channel volume)`
pairs and the output length; `channels` is `s->sample_spec.channels`.
Returns the chunk handed to `pa_source_post` together with the new
uplink state; `none` models an uplink producer that never fills the
queue (the C loop would spin forever). -/
def pa_virtual_source_post {α : Type} (channels : Nat)
    (mix : List (List α × List Nat) → Nat → List α)
    (uplink : Option (UplinkState α)) (producer : List (List α))
    (chunk : List α) : Option (List α × Option (UplinkState α)) :=
  match uplink with
  | some u0 =>
    if u0.opened then
      let u := if u0.rewind_requested then (sink_process_rewind u0).1 else u0
      let nbytes := chunk.length
      match render_fill nbytes producer u.q with
      | none => none
      | some q2 =>
        let tchunk := mpeekFixed q2 nbytes
        let q3 := mdrop q2 nbytes
        some (mix [(chunk, List.replicate channels PA_VOLUME_NORM),
                   (tchunk, List.replicate channels PA_VOLUME_NORM)] nbytes,
              some { u with q := q3 })
    else some (chunk, some u0)
  | none => some (chunk, none)

theorem pushLoopFuel_of_cond_false {α : Type} (vs : VSource α) (fuel : Nat)
    (q : Memblockq α) (h : pushLoopCond vs (mlen q) = false) :
    pushLoopFuel vs fuel q = ⟨[], q, true⟩ := by
  cases fuel <;> simp [pushLoopFuel, h]

theorem mpeekFixed_length {α : Type} (q : Memblockq α) (k : Nat) :
    (mpeekFixed q k).length = k := by
  simp [mpeekFixed]

theorem mpeekFixed_of_le {α : Type} (q : Memblockq α) (k : Nat) (h : k ≤ mlen q) :
    mpeekFixed q k = (q.data.drop q.read).take k := by
  unfold mpeekFixed
  rw [List.take_append_of_le_length]
  simpa [mlen] using h

theorem mlen_mdrop {α : Type} (q : Memblockq α) (k : Nat) :
    mlen (mdrop q k) = mlen q - k := by
  simp [mlen, mdrop]
  omega

/-- With no fixed input block size, no overlap and a queue holding at
least one full block, one loop iteration consumes and emits exactly one
`fixed_block_size` block. -/
theorem pushIter_simple_block {α : Type} (vs : VSource α) (q : Memblockq α)
    (hfibs : vs.fixed_input_block_size = 0)
    (hov : vs.overlap_frames = 0)
    (hB : 0 < vs.fixed_block_size)
    (hmaxc : vs.fixed_block_size ≤ vs.max_chunk_frames)
    (hmaxb : vs.fixed_block_size ≤ vs.max_block_frames)
    (hlen : vs.fixed_block_size ≤ mlen q) :
    pushIter vs q =
      some (⟨mpeekFixed q vs.fixed_block_size, vs.fixed_block_size,
              vs.fixed_block_size,
              vs.process_chunk (mpeekFixed q vs.fixed_block_size)
                vs.fixed_block_size vs.fixed_block_size⟩,
            mdrop q vs.fixed_block_size) := by
  have hpn : pushN vs (mlen q) = vs.fixed_block_size := by
    simp only [pushN, hfibs]
    split_ifs <;> omega
  have hov2 : pushOv vs vs.fixed_block_size = 0 := by
    cases hg : vs.get_current_overlap <;>
      simp [pushOv, pushOverlapBase, hfibs, hov, hg]
  have hn4 : pushN4 vs vs.fixed_block_size = vs.fixed_block_size := by
    simp [pushN4, hfibs]
  have hn5 : pushN5 vs vs.fixed_block_size 0 = vs.fixed_block_size := by
    simp only [pushN5]
    split_ifs <;> omega
  rw [pushIter]
  simp only [hpn, hov2, hn4, hn5]
  rw [if_neg (by omega)]
  simp

/-- The push loop on a queue holding exactly `k` blocks of a passthrough
node: it runs `k` iterations, posts the queued frames verbatim in `k`
block-sized chunks, and drains the queue. -/
theorem pushLoopFuel_roundtrip {α : Type} (vs : VSource α)
    (hfibs : vs.fixed_input_block_size = 0)
    (hov : vs.overlap_frames = 0)
    (hproc : vs.process_chunk = fun src _ n => src.take n)
    (hB : 0 < vs.fixed_block_size)
    (hmaxc : vs.fixed_block_size ≤ vs.max_chunk_frames)
    (hmaxb : vs.fixed_block_size ≤ vs.max_block_frames) :
    ∀ k fuel (q : Memblockq α), mlen q = k * vs.fixed_block_size → k ≤ fuel →
      (pushLoopFuel vs fuel q).ok = true ∧
      (pushLoopFuel vs fuel q).posted.length = k ∧
      ((pushLoopFuel vs fuel q).posted.map FilterCall.output).flatten =
        q.data.drop q.read ∧
      mlen (pushLoopFuel vs fuel q).q = 0 := by
  intro k
  induction k with
  | zero =>
    intro fuel q hq _
    have hcond : pushLoopCond vs (mlen q) = false := by
      simp only [pushLoopCond, hq, Nat.zero_mul]
      simp only [Bool.or_eq_false_iff, Bool.and_eq_false_iff]
      refine ⟨by simp, Or.inr ?_⟩
      simp only [beq_eq_false_iff_ne, ne_eq]
      omega
    rw [pushLoopFuel_of_cond_false vs fuel q hcond]
    refine ⟨rfl, rfl, ?_, ?_⟩
    · rw [Nat.zero_mul] at hq
      unfold mlen at hq
      rw [List.drop_eq_nil_of_le (by omega)]
      rfl
    · rw [Nat.zero_mul] at hq
      exact hq
  | succ k ih =>
    intro fuel q hq hfuel
    obtain ⟨f, rfl⟩ : ∃ f, fuel = f + 1 := ⟨fuel - 1, by omega⟩
    have hBm : vs.fixed_block_size ≤ mlen q := by
      rw [hq]
      exact Nat.le_mul_of_pos_left _ (by omega)
    have hcond : pushLoopCond vs (mlen q) = true := by
      simp only [pushLoopCond, Bool.or_eq_true, Bool.and_eq_true, decide_eq_true_eq,
        beq_iff_eq]
      rcases Nat.eq_or_lt_of_le hBm with heq | hlt
      · exact Or.inr ⟨hB, heq.symm⟩
      · exact Or.inl hlt
    have hiter := pushIter_simple_block vs q hfibs hov hB hmaxc hmaxb hBm
    rw [pushLoopFuel, if_pos hcond, hiter]
    have hq2 : mlen (mdrop q vs.fixed_block_size) = k * vs.fixed_block_size := by
      rw [mlen_mdrop, hq, Nat.succ_mul]
      omega
    obtain ⟨ihok, ihlen, ihjoin, ihq⟩ :=
      ih f (mdrop q vs.fixed_block_size) hq2 (by omega)
    refine ⟨ihok, by simpa using ihlen, ?_, ihq⟩
    simp only [List.map_cons, List.flatten_cons]
    rw [ihjoin]
    rw [hproc]
    simp only [mpeekFixed_of_le q _ hBm, List.take_take, Nat.min_self]
    show (q.data.drop q.read).take vs.fixed_block_size ++
        (mdrop q vs.fixed_block_size).data.drop (mdrop q vs.fixed_block_size).read =
      q.data.drop q.read
    unfold mdrop
    simp only []
    rw [← List.drop_drop]
    exact List.take_append_drop _ _

theorem check_block_sizes_ok_fibs_le (fo fi ov mx : Nat)
    (h : check_block_sizes fo fi ov mx = 0) : fi ≤ mx := by
  unfold check_block_sizes MIN_BLOCK_SIZE at h
  split_ifs at h with h1 h2 h3 h4 h5 h6 <;>
    first
      | exact absurd h (by decide)
      | (simp only [Bool.or_eq_true, decide_eq_true_eq, not_or, not_lt] at h1
         exact h1.1.2)

/-- The output-sample count never exceeds a nonzero
`fixed_input_block_size`. -/
theorem pushN_le_fibs {α : Type} (vs : VSource α) (length : Nat)
    (hfibs : vs.fixed_input_block_size ≠ 0) :
    pushN vs length ≤ vs.fixed_input_block_size := by
  simp only [pushN]
  split_ifs <;> omega

/-- In fixed-input mode, `in_count = n + overlap` always equals
`fixed_input_block_size` once the block sizes pass validation. -/
theorem pushIter_in_count_fixed_input {α : Type} (vs : VSource α) (n3 : Nat)
    (hn3 : n3 ≤ vs.fixed_input_block_size)
    (hfibs : vs.fixed_input_block_size ≠ 0)
    (hle : vs.fixed_input_block_size ≤ vs.max_block_frames) :
    pushN5 vs (pushN4 vs n3) (pushOv vs n3) + pushOv vs n3 =
      vs.fixed_input_block_size := by
  unfold pushN4 pushN5 pushOv
  split_ifs <;> omega

/-- Any successful iteration in fixed-input mode records a filter call
with `in_count = fixed_input_block_size`. -/
theorem pushIter_some_in_count {α : Type} (vs : VSource α) (q : Memblockq α)
    (call : FilterCall α) (q2 : Memblockq α)
    (hfibs : vs.fixed_input_block_size ≠ 0)
    (hle : vs.fixed_input_block_size ≤ vs.max_block_frames)
    (h : pushIter vs q = some (call, q2)) :
    call.in_count = vs.fixed_input_block_size := by
  simp only [pushIter] at h
  split at h
  · exact absurd h (by simp)
  · rw [Option.some_inj, Prod.mk.injEq] at h
    obtain ⟨hcall, hq⟩ := h
    rw [← hcall]
    exact pushIter_in_count_fixed_input vs _ (pushN_le_fibs vs _ hfibs) hfibs hle

/-- Every filter call recorded by the loop in fixed-input mode has
`in_count = fixed_input_block_size`. -/
theorem pushLoopFuel_in_count_fixed_input {α : Type} (vs : VSource α)
    (hfibs : vs.fixed_input_block_size ≠ 0)
    (hle : vs.fixed_input_block_size ≤ vs.max_block_frames) :
    ∀ fuel (q : Memblockq α) c, c ∈ (pushLoopFuel vs fuel q).posted →
      c.in_count = vs.fixed_input_block_size := by
  intro fuel
  induction fuel with
  | zero => intro q c hc; simp [pushLoopFuel] at hc
  | succ f ih =>
    intro q c hc
    rw [pushLoopFuel] at hc
    split at hc
    · cases hpi : pushIter vs q with
      | none =>
        rw [hpi] at hc
        simp at hc
      | some p =>
        obtain ⟨call2, q2⟩ := p
        rw [hpi] at hc
        simp only [List.mem_cons] at hc
        rcases hc with hc | hc
        · subst hc
          exact pushIter_some_in_count vs q c q2 hfibs hle hpi
        · exact ih q2 c hc
    · simp at hc

/-- The render loop only stops once the uplink queue holds at least the
requested amount — the posted mix is never built from less. -/
theorem render_fill_le {α : Type} (nbytes : Nat) :
    ∀ (producer : List (List α)) (q q2 : Memblockq α),
      render_fill nbytes producer q = some q2 → nbytes ≤ mlen q2 := by
  intro producer
  induction producer with
  | nil =>
    intro q q2 h
    unfold render_fill at h
    split at h
    · rename_i hle
      cases h
      exact hle
    · exact absurd h (by simp)
  | cons c rest ih =>
    intro q q2 h
    unfold render_fill at h
    split at h
    · rename_i hle
      cases h
      exact hle
    · exact ih _ _ h

end VSrc

open VSrc in
/-- C5: with a nonzero `fixed_block_size`, a filter and an empty
accumulation queue, pushing fewer than `fixed_block_size` frames invokes
the filter zero times and posts nothing, and afterwards the queue holds
exactly the pushed frames. -/
theorem push_short_input_stays_buffered {α : Type} (vs : VSource α) (sil : α)
    (chunk : List α) (hB : 0 < vs.fixed_block_size)
    (hshort : chunk.length < vs.fixed_block_size) :
    pa_virtual_source_output_push vs (memblockqNew sil) chunk =
      ⟨[], ⟨sil, chunk, 0⟩, true⟩ := by
  have hq : mpush (memblockqNew sil) chunk = ⟨sil, chunk, 0⟩ := by
    simp [mpush, memblockqNew]
  have hcond : pushLoopCond vs (mlen (⟨sil, chunk, 0⟩ : Memblockq α)) = false := by
    simp only [pushLoopCond, mlen, Bool.or_eq_false_iff, Bool.and_eq_false_iff]
    constructor
    · simp only [decide_eq_false_iff_not, not_lt]
      omega
    · right
      simp only [beq_eq_false_iff_ne, ne_eq]
      omega
  rw [pa_virtual_source_output_push, hq, pushLoopFuel_of_cond_false vs _ _ hcond]

open VSrc in
/-- Witness for C5 at a concrete input. -/
theorem push_short_input_stays_buffered_witness :
    pa_virtual_source_output_push
      (⟨32, 0, 0, 1024, 1024, none, fun src _ n => src.take n⟩ : VSource Nat)
      (memblockqNew 0) [1, 2, 3] = ⟨[], ⟨0, [1, 2, 3], 0⟩, true⟩ :=
  push_short_input_stays_buffered _ 0 [1, 2, 3] (by decide) (by decide)

/-- C2: block-size validation fails exactly when one of the listed
conditions holds (fixed output above the device maximum, fixed input
above it, overlap plus the 16-frame minimum above it, a nonzero fixed
output or input below the 16-frame floor, fixed output plus overlap
above the maximum, or a nonzero fixed input smaller than the fixed
output), succeeds otherwise, and in particular
`validate(8, 0, 0, 1024)` fails. -/
theorem check_block_sizes_characterization :
    (∀ fo fi ov mx : Nat,
      (VSrc.check_block_sizes fo fi ov mx = -1 ↔
        (fo > mx ∨ fi > mx ∨ ov + 16 > mx ∨ (fo ≠ 0 ∧ fo < 16) ∨
          (fi ≠ 0 ∧ fi < 16) ∨ fo + ov > mx ∨ (fi ≠ 0 ∧ fi < fo))) ∧
      (VSrc.check_block_sizes fo fi ov mx = 0 ↔
        ¬(fo > mx ∨ fi > mx ∨ ov + 16 > mx ∨ (fo ≠ 0 ∧ fo < 16) ∨
          (fi ≠ 0 ∧ fi < 16) ∨ fo + ov > mx ∨ (fi ≠ 0 ∧ fi < fo)))) ∧
    VSrc.check_block_sizes 8 0 0 1024 = -1 := by
  refine ⟨?_, by decide⟩
  intro fo fi ov mx
  unfold VSrc.check_block_sizes VSrc.MIN_BLOCK_SIZE
  split_ifs with h1 h2 h3 h4 h5 h6 <;>
    simp only [Bool.or_eq_true, Bool.and_eq_true, decide_eq_true_eq, ne_eq, decide_not,
      Bool.not_eq_true', decide_eq_false_iff_not, Bool.not_eq_eq_eq_not, Bool.not_true] at * <;>
    norm_num <;> omega

open VSrc in
/-- C1: with `overlap_frames = 0`, no fixed input block size, a nonzero
`fixed_block_size` and a passthrough filter (`process` copies its input
to its output), pushing `k × fixed_block_size` frames into an empty
queue posts exactly `k` output chunks whose concatenation equals the
pushed input, draining the queue. -/
theorem push_passthrough_roundtrip {α : Type} (vs : VSource α) (sil : α)
    (chunk : List α) (k : Nat)
    (hfibs : vs.fixed_input_block_size = 0)
    (hov : vs.overlap_frames = 0)
    (hproc : vs.process_chunk = fun src _ n => src.take n)
    (hB : 0 < vs.fixed_block_size)
    (hmaxc : vs.fixed_block_size ≤ vs.max_chunk_frames)
    (hmaxb : vs.fixed_block_size ≤ vs.max_block_frames)
    (hlen : chunk.length = k * vs.fixed_block_size) :
    (pa_virtual_source_output_push vs (memblockqNew sil) chunk).ok = true ∧
    (pa_virtual_source_output_push vs (memblockqNew sil) chunk).posted.length = k ∧
    ((pa_virtual_source_output_push vs (memblockqNew sil) chunk).posted.map
      FilterCall.output).flatten = chunk ∧
    mlen (pa_virtual_source_output_push vs (memblockqNew sil) chunk).q = 0 := by
  have hq : mpush (memblockqNew sil) chunk = ⟨sil, chunk, 0⟩ := by
    simp [mpush, memblockqNew]
  have hqlen : mlen (⟨sil, chunk, 0⟩ : Memblockq α) = k * vs.fixed_block_size := by
    simpa [mlen] using hlen
  have h := pushLoopFuel_roundtrip vs hfibs hov hproc hB hmaxc hmaxb k
    (mlen (⟨sil, chunk, 0⟩ : Memblockq α)) ⟨sil, chunk, 0⟩ hqlen
    (by rw [hqlen]; exact Nat.le_mul_of_pos_right _ hB)
  rw [pa_virtual_source_output_push, hq]
  simpa using h

open VSrc in
/-- Witness for C1: two blocks of four frames pass through unchanged as
two posted chunks. -/
theorem push_passthrough_roundtrip_witness :
    (pa_virtual_source_output_push
        (⟨4, 0, 0, 64, 64, none, fun src _ n => src.take n⟩ : VSource Nat)
        (memblockqNew 0) [1, 2, 3, 4, 5, 6, 7, 8]).ok = true ∧
    (pa_virtual_source_output_push
        (⟨4, 0, 0, 64, 64, none, fun src _ n => src.take n⟩ : VSource Nat)
        (memblockqNew 0) [1, 2, 3, 4, 5, 6, 7, 8]).posted.length = 2 ∧
    ((pa_virtual_source_output_push
        (⟨4, 0, 0, 64, 64, none, fun src _ n => src.take n⟩ : VSource Nat)
        (memblockqNew 0) [1, 2, 3, 4, 5, 6, 7, 8]).posted.map
      FilterCall.output).flatten = [1, 2, 3, 4, 5, 6, 7, 8] ∧
    mlen (pa_virtual_source_output_push
        (⟨4, 0, 0, 64, 64, none, fun src _ n => src.take n⟩ : VSource Nat)
        (memblockqNew 0) [1, 2, 3, 4, 5, 6, 7, 8]).q = 0 :=
  push_passthrough_roundtrip
    (⟨4, 0, 0, 64, 64, none, fun src _ n => src.take n⟩ : VSource Nat)
    0 [1, 2, 3, 4, 5, 6, 7, 8] 2 rfl rfl rfl (by decide) (by decide) (by decide)
    (by decide)

open VSrc in
/-- C10: when `fixed_input_block_size` is nonzero and the block sizes
pass validation, every filter invocation inside the push loop receives
exactly `fixed_input_block_size` input frames (`in_count = n +
overlap = fixed_input_block_size`), however many frames are queued. -/
theorem push_fixed_input_in_count_invariant {α : Type} (vs : VSource α)
    (q : Memblockq α) (chunk : List α)
    (hfibs : vs.fixed_input_block_size ≠ 0)
    (hok : check_block_sizes vs.fixed_block_size vs.fixed_input_block_size
      vs.overlap_frames vs.max_block_frames = 0) :
    ∀ c ∈ (pa_virtual_source_output_push vs q chunk).posted,
      c.in_count = vs.fixed_input_block_size := by
  intro c hc
  exact pushLoopFuel_in_count_fixed_input vs hfibs
    (check_block_sizes_ok_fibs_le _ _ _ _ hok) _ _ c hc

open VSrc in
/-- Witness for C10: a 40-frame push with `fixed_input_block_size = 32`
and `fixed_block_size = 16` performs a filter call with `in_count = 32`
(16 new frames plus 16 forced overlap frames). -/
theorem push_fixed_input_in_count_invariant_witness :
    (⟨List.replicate 32 7, 32, 16, List.replicate 16 7⟩ : FilterCall Nat).in_count
      = 32 :=
  push_fixed_input_in_count_invariant
    (⟨16, 32, 5, 1024, 1024, none, fun src _ n => src.take n⟩ : VSource Nat)
    (memblockqNew 0) (List.replicate 40 7) (by decide) (by decide)
    ⟨List.replicate 32 7, 32, 16, List.replicate 16 7⟩ (by decide)

open VSrc in
/-- C3: a runtime filter-parameter update whose new block sizes fail
validation is rejected with all three fields restored to their previous
values; an update that passes validation keeps the new values. -/
theorem update_parameters_keep_or_restore (old : BlockSizeParams)
    (f : BlockSizeParams → BlockSizeParams) (maxb : Nat) :
    (check_block_sizes (f old).fixed_block_size (f old).fixed_input_block_size
        (f old).overlap_frames maxb < 0 →
      handle_update_parameters old f maxb = old) ∧
    (¬ check_block_sizes (f old).fixed_block_size (f old).fixed_input_block_size
        (f old).overlap_frames maxb < 0 →
      handle_update_parameters old f maxb = f old) := by
  unfold handle_update_parameters
  constructor
  · intro h
    rw [if_pos h]
  · intro h
    rw [if_neg h]

open VSrc in
/-- Witness for C3: an update to the invalid block size 8 (below the
16-frame floor) is rejected and the old sizes survive. -/
theorem update_parameters_keep_or_restore_witness :
    handle_update_parameters ⟨32, 0, 0⟩ (fun _ => ⟨8, 0, 0⟩) 1024 = ⟨32, 0, 0⟩ :=
  (update_parameters_keep_or_restore ⟨32, 0, 0⟩ (fun _ => ⟨8, 0, 0⟩) 1024).1
    (by decide)

open VSrc in
/-- C9: a rewind request of 0 bytes never changes the node's state — in
particular the accumulation queue is untouched when one exists — and
whatever is forwarded is a zero-byte rewind; nothing is posted. -/
theorem rewind_zero_is_noop {α : Type} (st : RewindState α) :
    (pa_virtual_source_output_process_rewind st 0).1 = st ∧
    ((pa_virtual_source_output_process_rewind st 0).2 = none ∨
      (pa_virtual_source_output_process_rewind st 0).2 = some 0) := by
  unfold pa_virtual_source_output_process_rewind
  rcases st with ⟨linked, corked, ifs, ofs, mq, up⟩
  cases linked
  · simp
  · cases corked
    · cases mq with
      | some q =>
        simp [mseek]
      | none =>
        cases up with
        | none => simp
        | some p =>
          obtain ⟨opened, uq⟩ := p
          cases opened <;> simp [mrewind]
    · simp

open VSrc in
/-- C6: with no accumulation queue, on a linked, uncorked node a rewind
request is translated by `out_frame_size / in_frame_size` and forwarded
upstream, and an opened uplink sink's queue is rewound by exactly the
same translated amount. -/
theorem rewind_no_queue_translates_and_forwards {α : Type} (st : RewindState α)
    (uq : Memblockq α) (nbytes : Nat)
    (hl : st.linked = true) (hc : st.corked = false)
    (hq : st.memblockq = none) (hu : st.uplink = some (true, uq)) :
    pa_virtual_source_output_process_rewind st nbytes =
      ({ st with
          uplink := some (true, mrewind uq (nbytes * st.out_fs / st.in_fs)) },
        some (nbytes * st.out_fs / st.in_fs)) := by
  unfold pa_virtual_source_output_process_rewind
  rw [hl, hc, hq, hu]
  simp

open VSrc in
/-- Witness for C6: 6 bytes with `out_fs = 4`, `in_fs = 2` become a
12-byte rewind on both paths. -/
theorem rewind_no_queue_translates_and_forwards_witness :
    pa_virtual_source_output_process_rewind
      (⟨true, false, 2, 4, none, some (true, ⟨0, [1, 2, 3, 4], 4⟩)⟩ :
        RewindState Nat) 6 =
      (⟨true, false, 2, 4, none, some (true, ⟨0, [1, 2, 3, 4], 0⟩)⟩, some 12) :=
  rewind_no_queue_translates_and_forwards
    (⟨true, false, 2, 4, none, some (true, ⟨0, [1, 2, 3, 4], 4⟩)⟩ :
      RewindState Nat)
    ⟨0, [1, 2, 3, 4], 4⟩ 6 rfl rfl rfl rfl

open VSrc in
/-- C7: the move-permission check denies the move exactly when the node
was auto-loaded, the destination is the node's own public endpoint, or
the destination's master chain resolves to the node's uplink sink's
monitor source; otherwise the move is permitted — and a denied move
leaves the upstream attachment unchanged. -/
theorem may_move_to_characterization (autoloaded : Bool) (self dest : Nat)
    (uplink_monitor : Option Nat) (masterOf : Nat → Option Nat) (fuel : Nat)
    (current : Nat) :
    (pa_virtual_source_output_may_move_to autoloaded self dest uplink_monitor
        masterOf fuel = false ↔
      (autoloaded = true ∨ self = dest ∨
        (∃ mon, uplink_monitor = some mon ∧
          chain_master masterOf fuel dest = mon))) ∧
    (pa_virtual_source_output_may_move_to autoloaded self dest uplink_monitor
        masterOf fuel = false →
      move_to_attachment autoloaded self dest uplink_monitor masterOf fuel
        current = current) := by
  constructor
  · unfold pa_virtual_source_output_may_move_to
    cases autoloaded
    · cases uplink_monitor with
      | none =>
        by_cases hsd : self = dest
        · simp [hsd]
        · simp [hsd]
      | some mon =>
        by_cases hsd : self = dest
        · simp [hsd]
        · by_cases hcm : chain_master masterOf fuel dest = mon
          · simp [hsd, hcm]
          · simp [hsd, hcm]
    · simp
  · intro h
    unfold move_to_attachment
    rw [h]
    simp

open VSrc in
/-- Witness for C7: an auto-loaded node may not be moved, and the
attachment stays where it was. -/
theorem may_move_to_characterization_witness :
    pa_virtual_source_output_may_move_to true 1 2 none (fun _ => none) 3
      = false ∧
    move_to_attachment true 1 2 none (fun _ => none) 3 7 = 7 :=
  ⟨((may_move_to_characterization true 1 2 none (fun _ => none) 3 7).1).mpr
      (Or.inl rfl),
   (may_move_to_characterization true 1 2 none (fun _ => none) 3 7).2
     (((may_move_to_characterization true 1 2 none (fun _ => none) 3 7).1).mpr
       (Or.inl rfl))⟩

open VSrc in
/-- C8: the uplink sink reports its latency as its own queued bytes
converted to time minus the owning node's source latency, and exactly 0
whenever it is not in an opened state. -/
theorem uplink_sink_latency_report {α : Type} (opened : Bool)
    (uq : Memblockq α) (fs rate : Nat) (source_latency : Int) :
    (opened = true →
      sink_get_latency opened uq fs rate source_latency =
        (pa_bytes_to_usec (mlen uq) fs rate : Int) - source_latency) ∧
    (opened = false → sink_get_latency opened uq fs rate source_latency = 0) := by
  constructor
  · intro h
    simp [sink_get_latency, h]
  · intro h
    simp [sink_get_latency, h]

open VSrc in
/-- Witness for C8: four queued bytes of 2-byte frames at 1 MHz are 2
microseconds; with upstream latency 5 the sink reports −3. -/
theorem uplink_sink_latency_report_witness :
    sink_get_latency true (⟨0, [1, 2, 3, 4], 0⟩ : Memblockq Nat) 2 1000000 5 =
      (pa_bytes_to_usec (mlen (⟨0, [1, 2, 3, 4], 0⟩ : Memblockq Nat)) 2 1000000 :
        Int) - 5 :=
  (uplink_sink_latency_report true ⟨0, [1, 2, 3, 4], 0⟩ 2 1000000 5).1 rfl

open VSrc in
/-- C4: posting a chunk when the uplink sink exists and is opened
obtains exactly `len(chunk)` bytes from the uplink queue (rendering from
its producer until the queue holds at least that much, never less),
mixes the captured and uplink chunks as two equal-length streams at
unity volume, and posts the mix; without an opened uplink the chunk is
posted unchanged. -/
theorem post_mixes_uplink {α : Type} (channels : Nat)
    (mix : List (List α × List Nat) → Nat → List α) (u : UplinkState α)
    (producer : List (List α)) (chunk : List α) (q2 : Memblockq α)
    (hrw : u.rewind_requested = false)
    (hfill : render_fill chunk.length producer u.q = some q2) :
    (u.opened = true →
      pa_virtual_source_post channels mix (some u) producer chunk =
        some (mix [(chunk, List.replicate channels PA_VOLUME_NORM),
                   (mpeekFixed q2 chunk.length,
                     List.replicate channels PA_VOLUME_NORM)] chunk.length,
              some { u with q := mdrop q2 chunk.length }) ∧
      (mpeekFixed q2 chunk.length).length = chunk.length ∧
      chunk.length ≤ mlen q2) ∧
    (u.opened = false →
      pa_virtual_source_post channels mix (some u) producer chunk =
        some (chunk, some u)) ∧
    pa_virtual_source_post channels mix none producer chunk =
      some (chunk, none) := by
  refine ⟨?_, ?_, rfl⟩
  · intro hop
    refine ⟨?_, mpeekFixed_length q2 _, render_fill_le _ _ _ _ hfill⟩
    simp [pa_virtual_source_post, hop, hrw, hfill]
  · intro hop
    simp [pa_virtual_source_post, hop]

open VSrc in
/-- Witness for C4: a 3-byte chunk against an uplink queue holding 2
bytes; one render of 2 more bytes fills it, 3 bytes are consumed. -/
theorem post_mixes_uplink_witness :
    pa_virtual_source_post 1 (fun _ _ => ([] : List Nat))
        (some ⟨true, false, 0, ⟨0, [5, 6], 0⟩⟩) [[7, 8]] [1, 2, 3] =
      some ([], some ⟨true, false, 0, ⟨0, [5, 6, 7, 8], 3⟩⟩) ∧
    (mpeekFixed (⟨0, [5, 6, 7, 8], 0⟩ : Memblockq Nat) 3).length = 3 ∧
    3 ≤ mlen (⟨0, [5, 6, 7, 8], 0⟩ : Memblockq Nat) :=
  (post_mixes_uplink 1 (fun _ _ => ([] : List Nat))
    ⟨true, false, 0, ⟨0, [5, 6], 0⟩⟩ [[7, 8]] [1, 2, 3]
    ⟨0, [5, 6, 7, 8], 0⟩ rfl (by decide)).1 rfl
